import Mathlib

/-!
# Verification of the Heston analytic engine (`pyfeng/heston.py`)

Shallow embedding of the four core operations of `heston.py` over exact real
arithmetic:

* `var_mv` — mean/variance of the instantaneous variance `V(t+dt)` given `V(0)`;
* `avgvar_mv` — mean/variance of the time-averaged variance (Ball & Roma 1994);
* `fair_strike_var` — analytic fair strike of a variance swap, continuous
  baseline plus discrete-monitoring correction;
* `HestonUncorrBallRoma1994.price` — the 0th/2nd-order moment-matching price
  that composes `avgvar_mv` with an external flat-volatility (Black-Scholes)
  pricer.

Python scalar exceptions are modelled with `Except PyError`: a pure-Python
float division raises `ZeroDivisionError` when the denominator is zero, and
the `elif self.order > 2` branch raises a `ValueError` naming the order.
All other arithmetic is total, embedded as exact real arithmetic.
-/

namespace PyFENG

/-- Modelled from the spec: the base parameter object supplied by `sv.SvABC`
(module `sv_abc` is not under `src/`): mean-reversion speed `mr`, long-run
variance `theta`, vol-of-vol `vov`, correlation `rho`, interest rate `intr`,
dividend rate `divr`, and the initial variance level `sigma` (denoted `var0`
in the formulas). -/
structure SvParams where
  mr : ℝ
  theta : ℝ
  vov : ℝ
  rho : ℝ
  intr : ℝ
  divr : ℝ
  sigma : ℝ

/-- The Python exceptions observable from the embedded code.
`zeroDivision` is `ZeroDivisionError` (pure-Python float division by zero);
`valueErrorOrder n` is the `ValueError(f"Not implemented for approx order: ...")`
raised by the pricer, carrying the offending order;
`invalidParameter` is the `InvalidParameterError` that the spec's error
taxonomy postulates — the source never raises it (no constructor site below
uses it), it is present only so that the spec's claimed behaviour is statable. -/
inductive PyError where
  | zeroDivision : PyError
  | invalidParameter : PyError
  | valueErrorOrder : ℤ → PyError
deriving DecidableEq

/-- `HestonABC.var_mv(var0, dt)` from `heston.py`: mean and variance of the
variance `V(t+dt)` given `V(0) = var0`.

```
expo = np.exp(-self.mr*dt)
m = self.theta + (var0 - self.theta)*expo
s2 = var0*expo + self.theta*(1 - expo)/2
s2 *= self.vov**2*(1 - expo)/self.mr
return m, s2
```
All divisions have nonzero denominators except `/self.mr` at `mr = 0`, where
the numerator is a NumPy scalar (via `np.exp`), so NumPy yields a non-finite
value rather than raising; the function is therefore embedded as total. -/
noncomputable def var_mv (p : SvParams) (var0 dt : ℝ) : ℝ × ℝ :=
  let expo := Real.exp (-(p.mr * dt))
  let m := p.theta + (var0 - p.theta) * expo
  let s2 := var0 * expo + p.theta * (1 - expo) / 2
  (m, s2 * (p.vov ^ 2 * (1 - expo) / p.mr))

/-- Mean component of `HestonABC.avgvar_mv`:
`mean = self.theta + x0*(1 - e_mr)/mr_t` with `mr_t = self.mr*texp`,
`e_mr = np.exp(-mr_t)`, `x0 = var0 - self.theta`. -/
noncomputable def avgvar_mean (p : SvParams) (var0 texp : ℝ) : ℝ :=
  let mr_t := p.mr * texp
  let e_mr := Real.exp (-mr_t)
  let x0 := var0 - p.theta
  p.theta + x0 * (1 - e_mr) / mr_t

/-- Variance component of `HestonABC.avgvar_mv`:
```
var = (self.theta - 2*x0*e_mr) + (1 - e_mr)*(var0 - 2.5*self.theta + (var0 - self.theta/2)*e_mr)/mr_t
var *= (self.vov/mr_t)**2 * texp
``` -/
noncomputable def avgvar_var (p : SvParams) (var0 texp : ℝ) : ℝ :=
  let mr_t := p.mr * texp
  let e_mr := Real.exp (-mr_t)
  let x0 := var0 - p.theta
  ((p.theta - 2 * x0 * e_mr) +
      (1 - e_mr) * (var0 - 2.5 * p.theta + (var0 - p.theta / 2) * e_mr) / mr_t) *
    ((p.vov / mr_t) ^ 2 * texp)

/-- `HestonABC.avgvar_mv(var0, texp)` from `heston.py`: mean and variance of
the average variance given `V(0) = var0` (Ball & Roma 1994, Appendix B).

The only failure mode of the Python code is the denominator `mr_t`: when
`mr_t = self.mr*texp == 0`, the pure-float division `self.vov/mr_t` in the
last line raises `ZeroDivisionError` (the earlier `/mr_t` divisions have
NumPy-scalar numerators and merely propagate non-finite values before that
line is reached). All divisions share the single guard `mr_t = 0`. -/
noncomputable def avgvar_mv (p : SvParams) (var0 texp : ℝ) :
    Except PyError (ℝ × ℝ) :=
  if p.mr * texp = 0 then .error .zeroDivision
  else .ok (avgvar_mean p var0 texp, avgvar_var p var0 texp)

/-- `HestonABC.fair_strike_var(texp, aa)` from `heston.py`: analytic fair
strike of a variance swap; `aa = none` is continuous monitoring, `some a` is
`a` observations per year.

```
var0 = self.sigma
mr_t = self.mr*texp ; e_mr = np.exp(-mr_t) ; x0 = var0 - self.theta
strike = self.theta + x0*(1 - e_mr)/mr_t
if aa is not None:
    mr_a = self.mr/aa ; e_mr_a = np.exp(-mr_a)
    tmp = self.theta - 2*self.intr
    strike += tmp / (4*aa) * (tmp + 2*x0*(1 - e_mr)/mr_t)
    tmp = self.vov / self.mr
    strike += self.theta*tmp * (tmp/4 - self.rho) * (1 - (1-e_mr_a)/mr_a)
    strike += x0 * tmp * (tmp/2 - self.rho) * (1 - e_mr)/mr_t * (1 + mr_a/(1-e_mr_a))
    strike -= (tmp**2*(self.mr - 2*var0) + 2*x0**2/self.mr) * (1 - e_mr**2)/(8*mr_t) * (1-e_mr_a)/(1+e_mr_a)
return strike
```
Failure modes (pure-Python float divisions): `self.mr/aa` raises
`ZeroDivisionError` when `aa = 0`, and `self.vov/self.mr` (also `2*x0**2/self.mr`)
raises when `mr = 0`; these guards are checked in source order.  The divisor
`1 - e_mr_a` is zero only when `mr/aa = 0`, i.e. only when `mr = 0`, which the
second guard already covers.  The continuous-strike division `/mr_t` has a
NumPy-scalar numerator and never raises (at `mr_t = 0` Python silently returns
a non-finite value; no claim probes that corner, which exact real arithmetic
cannot represent). -/
noncomputable def fair_strike_var (p : SvParams) (texp : ℝ) (aa : Option ℝ) :
    Except PyError ℝ :=
  let var0 := p.sigma
  let mr_t := p.mr * texp
  let e_mr := Real.exp (-mr_t)
  let x0 := var0 - p.theta
  let strike := p.theta + x0 * (1 - e_mr) / mr_t
  match aa with
  | none => .ok strike
  | some a =>
    if a = 0 then .error .zeroDivision
    else if p.mr = 0 then .error .zeroDivision
    else
      let mr_a := p.mr / a
      let e_mr_a := Real.exp (-mr_a)
      let tmp1 := p.theta - 2 * p.intr
      let s1 := strike + tmp1 / (4 * a) * (tmp1 + 2 * x0 * (1 - e_mr) / mr_t)
      let tmp := p.vov / p.mr
      let s2 := s1 + p.theta * tmp * (tmp / 4 - p.rho) * (1 - (1 - e_mr_a) / mr_a)
      let s3 := s2 + x0 * tmp * (tmp / 2 - p.rho) * (1 - e_mr) / mr_t * (1 + mr_a / (1 - e_mr_a))
      let s4 := s3 - (tmp ^ 2 * (p.mr - 2 * var0) + 2 * x0 ^ 2 / p.mr) * (1 - e_mr ^ 2) / (8 * mr_t) * (1 - e_mr_a) / (1 + e_mr_a)
      .ok s4

/-- Modelled from the spec: the external flat-volatility pricer contract
(`FlatVolPricer.price(strike, spot, texp, callPut)` and
`FlatVolPricer.d2_var(strike, spot, texp, callPut)`); the `bsm` module is not
under `src/`, so the two methods are opaque function fields. -/
structure Bsm where
  price : ℝ → ℝ → ℝ → ℤ → ℝ
  d2_var : ℝ → ℝ → ℝ → ℤ → ℝ

/-- `HestonUncorrBallRoma1994.price(strike, spot, texp, cp)` from `heston.py`.

`mkBsm vol intr divr` models the constructor call `bsm.Bsm(vol, intr=..., divr=...)`
(modelled from the spec's external `FlatVolPricer(vol, intr, divr)` contract,
the `bsm` module being absent from `src/`); `order` is the class attribute
`self.order` (fixed to `2` on the class, overridable in subclasses).  The
`rho` diagnostic is a bare `print` with no effect on the returned value, so it
has no counterpart in the value-level embedding.

```
avgvar, var = self.avgvar_mv(self.sigma, texp)
m_bs = bsm.Bsm(np.sqrt(avgvar), intr=self.intr, divr=self.divr)
price = m_bs.price(strike, spot, texp, cp)
if self.order == 2:
    price += 0.5*var*m_bs.d2_var(strike, spot, texp, cp)
elif self.order > 2:
    raise ValueError(f"Not implemented for approx order: ...")
return price
``` -/
noncomputable def HestonUncorrBallRoma1994.price (mkBsm : ℝ → ℝ → ℝ → Bsm)
    (p : SvParams) (order : ℤ) (strike spot texp : ℝ) (cp : ℤ) :
    Except PyError ℝ :=
  match avgvar_mv p p.sigma texp with
  | .error e => .error e
  | .ok (avgvar, var) =>
    let m_bs := mkBsm (Real.sqrt avgvar) p.intr p.divr
    let price0 := m_bs.price strike spot texp cp
    if order = 2 then .ok (price0 + 0.5 * var * m_bs.d2_var strike spot texp cp)
    else if order > 2 then .error (.valueErrorOrder order)
    else .ok price0

/-- A representative parameter set (the spec's concrete scenario:
`mr=1.0, theta=0.04, vov=0.2, rho=0.0, intr=0.01, divr=0.0, sigma=0.04`). -/
noncomputable def pEx : SvParams :=
  { mr := 1, theta := 0.04, vov := 0.2, rho := 0, intr := 0.01, divr := 0, sigma := 0.04 }

/-- **C4.** For all `mr>0, theta≥0, vov≥0, var0≥0`: `var_mv var0 0` returns
exactly mean `= var0` and variance `= 0`. -/
theorem var_mv_dt_zero (p : SvParams) (var0 : ℝ) (hmr : 0 < p.mr)
    (hth : 0 ≤ p.theta) (hvov : 0 ≤ p.vov) (hv0 : 0 ≤ var0) :
    var_mv p var0 0 = (var0, 0) := by
  simp [var_mv]

/-- **C4, witness.** The hypotheses hold and the conclusion is obtained from
`var_mv_dt_zero` at the spec's concrete scenario parameters. -/
theorem var_mv_dt_zero_witness :
    (0 < pEx.mr ∧ 0 ≤ pEx.theta ∧ 0 ≤ pEx.vov ∧ 0 ≤ (0.04 : ℝ)) ∧
      var_mv pEx 0.04 0 = (0.04, 0) :=
  ⟨⟨by norm_num [pEx], by norm_num [pEx], by norm_num [pEx], by norm_num⟩,
    var_mv_dt_zero pEx 0.04 (by norm_num [pEx]) (by norm_num [pEx])
      (by norm_num [pEx]) (by norm_num)⟩

/-- **C1.** For every parameter set with `mr > 0` and every `texp > 0`,
`fair_strike_var p texp none` returns exactly the mean component of
`avgvar_mv p p.sigma texp`; both equal
`theta + (sigma - theta)*(1 - exp(-mr*texp))/(mr*texp)`. -/
theorem fair_strike_cont_eq_avgvar_mean (p : SvParams) (texp : ℝ)
    (hmr : 0 < p.mr) (ht : 0 < texp) :
    fair_strike_var p texp none =
      Except.ok (p.theta + (p.sigma - p.theta) * (1 - Real.exp (-(p.mr * texp))) / (p.mr * texp)) ∧
    avgvar_mv p p.sigma texp =
      Except.ok (p.theta + (p.sigma - p.theta) * (1 - Real.exp (-(p.mr * texp))) / (p.mr * texp),
        avgvar_var p p.sigma texp) := by
  have hne : p.mr * texp ≠ 0 := by positivity
  exact ⟨rfl, by simp [avgvar_mv, avgvar_mean, hne]⟩

/-- **C1, witness.** Hypotheses hold at the spec's concrete scenario
(`mr = 1`, `texp = 1`) and the conclusion is `fair_strike_cont_eq_avgvar_mean`
applied there. -/
theorem fair_strike_cont_eq_avgvar_mean_witness :
    (0 < pEx.mr ∧ 0 < (1 : ℝ)) ∧
      (fair_strike_var pEx 1 none =
        Except.ok (pEx.theta + (pEx.sigma - pEx.theta) * (1 - Real.exp (-(pEx.mr * 1))) / (pEx.mr * 1)) ∧
      avgvar_mv pEx pEx.sigma 1 =
        Except.ok (pEx.theta + (pEx.sigma - pEx.theta) * (1 - Real.exp (-(pEx.mr * 1))) / (pEx.mr * 1),
          avgvar_var pEx pEx.sigma 1)) :=
  ⟨⟨by norm_num [pEx], by norm_num⟩,
    fair_strike_cont_eq_avgvar_mean pEx 1 (by norm_num [pEx]) (by norm_num)⟩

/-- **C6, counterexample.** At the spec's concrete parameters with `texp = 1`,
`fair_strike_var` called with `aa = 0` does *not* return the
`InvalidParameterError` the claim requires: the code has no parameter
validation, and the discrete-monitoring division `mr/aa` raises a plain
`ZeroDivisionError` instead. -/
theorem fair_strike_aa_zero_cex :
    fair_strike_var pEx 1 (some 0) ≠ Except.error PyError.invalidParameter := by
  simp [fair_strike_var]

/-- **C6, amended.** For every parameter set and every `texp`, calling
`fair_strike_var` with monitoring frequency `aa = 0` raises
`ZeroDivisionError` (from the unguarded division `mr_a = self.mr/aa` in the
discrete-monitoring branch, reached after the continuous strike has already
been computed); no `InvalidParameterError` or prior validation exists. -/
theorem fair_strike_aa_zero_zero_division (p : SvParams) (texp : ℝ) :
    fair_strike_var p texp (some 0) = Except.error PyError.zeroDivision := by
  simp [fair_strike_var]

/-- The spec's concrete scenario parameters with the mean-reversion speed
negated (`mr = -1`), an input the spec's validation claims reject. -/
noncomputable def pNeg : SvParams :=
  { mr := -1, theta := 0.04, vov := 0.2, rho := 0, intr := 0.01, divr := 0, sigma := 0.04 }

/-- **C7, counterexample.** With `mr = -1 ≤ 0` (and `texp = 1`), `avgvar_mv`
performs its arithmetic and returns an ordinary `MomentPair` — no
`InvalidParameterError` (nor any error) is raised — and `fair_strike_var`
likewise returns a plain value; the claimed validation does not exist. -/
theorem no_parameter_validation_cex :
    avgvar_mv pNeg 0.04 1 =
      Except.ok (avgvar_mean pNeg 0.04 1, avgvar_var pNeg 0.04 1) ∧
    fair_strike_var pNeg 1 none =
      Except.ok (0.04 + (0.04 - 0.04) * (1 - Real.exp (-(-1 * 1))) / (-1 * 1)) := by
  constructor
  · simp [avgvar_mv, pNeg]
  · rfl

/-- **C7, amended.** `avgvar_mv` and `fair_strike_var` perform no parameter
validation and never raise `InvalidParameterError`: whenever `mr*texp ≠ 0`
(in particular for every `mr < 0` or `texp < 0`), `avgvar_mv` returns a
`MomentPair` normally, and `fair_strike_var` with `aa = None` always returns
a value for any parameters whatsoever; the only exceptions the code can raise
are `ZeroDivisionError`s on a zero denominator. -/
theorem no_parameter_validation (p : SvParams) (var0 texp : ℝ)
    (hne : p.mr * texp ≠ 0) :
    avgvar_mv p var0 texp =
      Except.ok (avgvar_mean p var0 texp, avgvar_var p var0 texp) ∧
    fair_strike_var p texp none =
      Except.ok (p.theta + (p.sigma - p.theta) * (1 - Real.exp (-(p.mr * texp))) / (p.mr * texp)) := by
  exact ⟨by simp [avgvar_mv, hne], rfl⟩

/-- **C7, amended, witness.** The hypothesis `mr*texp ≠ 0` holds at
`mr = -1, texp = 1`, where the claim's `InvalidParameterError` would have been
required, and the conclusion is `no_parameter_validation` applied there. -/
theorem no_parameter_validation_witness :
    (pNeg.mr * 1 ≠ 0) ∧
      (avgvar_mv pNeg 0.09 1 =
        Except.ok (avgvar_mean pNeg 0.09 1, avgvar_var pNeg 0.09 1) ∧
      fair_strike_var pNeg 1 none =
        Except.ok (pNeg.theta + (pNeg.sigma - pNeg.theta) * (1 - Real.exp (-(pNeg.mr * 1))) / (pNeg.mr * 1))) :=
  ⟨by norm_num [pNeg], no_parameter_validation pNeg 0.09 1 (by norm_num [pNeg])⟩

/-- **C8.** The price returned by `HestonUncorrBallRoma1994.price` is
independent of `rho`: replacing `rho` by any value while keeping every other
field leaves the result unchanged, for every external pricer, order, strike,
spot, expiry and call/put flag (the `rho` diagnostic in the source is a bare
non-fatal `print` that neither blocks nor alters the computation). -/
theorem price_rho_independent (mkBsm : ℝ → ℝ → ℝ → Bsm) (p : SvParams) (r : ℝ)
    (order : ℤ) (strike spot texp : ℝ) (cp : ℤ) :
    HestonUncorrBallRoma1994.price mkBsm { p with rho := r } order strike spot texp cp =
      HestonUncorrBallRoma1994.price mkBsm p order strike spot texp cp := rfl

/-- Parameter set with `mr = 1, theta = 1, vov = 1, rho = 0, sigma = 1`. -/
noncomputable def pRho0 : SvParams :=
  { mr := 1, theta := 1, vov := 1, rho := 0, intr := 0, divr := 0, sigma := 1 }

/-- `pRho0` with the correlation changed to `rho = 1`; identical in every
other field. -/
noncomputable def pRho1 : SvParams :=
  { pRho0 with rho := 1 }

/-- **C10.** The continuously monitored fair strike (`aa = None`) is the same
for every `rho`, while the discretely monitored one depends on `rho`: two
parameter sets with `mr = 1 > 0`, `vov = 1 > 0`, `texp = 1 > 0` differing only
in `rho` (`0` vs `1`) give different strikes at `aa = 1`. -/
theorem fair_strike_rho_dependence :
    (∀ (p : SvParams) (r texp : ℝ),
      fair_strike_var { p with rho := r } texp none = fair_strike_var p texp none) ∧
    fair_strike_var pRho0 1 (some 1) ≠ fair_strike_var pRho1 1 (some 1) := by
  refine ⟨fun p r texp => rfl, ?_⟩
  have hA := Real.exp_pos (-1 : ℝ)
  simp only [fair_strike_var, pRho0, pRho1, one_ne_zero, if_false, ite_false]
  norm_num
  intro h
  nlinarith [h, hA]

/-- A stub flat-volatility pricer constructor returning fixed `price`/`d2_var`
values (`7` and `3`), as in the spec's testable property for the order-2
correction. -/
noncomputable def mkBsmStub : ℝ → ℝ → ℝ → Bsm :=
  fun _ _ _ => { price := fun _ _ _ _ => 7, d2_var := fun _ _ _ _ => 3 }

/-- **C2.** For every parameter set (with `mr > 0`, `texp > 0` so that the
moments are defined), every external pricer, strike, spot and call/put flag,
the `order = 2` price equals the `order = 0` price (the external
flat-volatility price at volatility `sqrt(avgvar)`) plus exactly
`0.5 * var * d2_var(strike, spot, texp, cp)`, where `(avgvar, var)` is the
pair returned by `avgvar_mv(sigma, texp)`. -/
theorem price_order2_correction (mkBsm : ℝ → ℝ → ℝ → Bsm) (p : SvParams)
    (strike spot texp : ℝ) (cp : ℤ) (hmr : 0 < p.mr) (ht : 0 < texp) :
    avgvar_mv p p.sigma texp =
      Except.ok (avgvar_mean p p.sigma texp, avgvar_var p p.sigma texp) ∧
    HestonUncorrBallRoma1994.price mkBsm p 0 strike spot texp cp =
      Except.ok ((mkBsm (Real.sqrt (avgvar_mean p p.sigma texp)) p.intr p.divr).price
        strike spot texp cp) ∧
    HestonUncorrBallRoma1994.price mkBsm p 2 strike spot texp cp =
      Except.ok ((mkBsm (Real.sqrt (avgvar_mean p p.sigma texp)) p.intr p.divr).price
          strike spot texp cp +
        0.5 * avgvar_var p p.sigma texp *
          (mkBsm (Real.sqrt (avgvar_mean p p.sigma texp)) p.intr p.divr).d2_var
            strike spot texp cp) := by
  have hne : p.mr * texp ≠ 0 := by positivity
  refine ⟨by simp [avgvar_mv, hne], ?_, ?_⟩ <;>
    simp [HestonUncorrBallRoma1994.price, avgvar_mv, hne]

/-- **C2, witness.** Hypotheses hold at the spec's scenario parameters with
the stub external pricer, and the conclusion is `price_order2_correction`
applied there (so the order-2 price exceeds the order-0 price by exactly
`0.5 * var * 3`). -/
theorem price_order2_correction_witness :
    (0 < pEx.mr ∧ 0 < (1 : ℝ)) ∧
      (avgvar_mv pEx pEx.sigma 1 =
        Except.ok (avgvar_mean pEx pEx.sigma 1, avgvar_var pEx pEx.sigma 1) ∧
      HestonUncorrBallRoma1994.price mkBsmStub pEx 0 1 1 1 1 =
        Except.ok ((mkBsmStub (Real.sqrt (avgvar_mean pEx pEx.sigma 1)) pEx.intr pEx.divr).price 1 1 1 1) ∧
      HestonUncorrBallRoma1994.price mkBsmStub pEx 2 1 1 1 1 =
        Except.ok ((mkBsmStub (Real.sqrt (avgvar_mean pEx pEx.sigma 1)) pEx.intr pEx.divr).price 1 1 1 1 +
          0.5 * avgvar_var pEx pEx.sigma 1 *
            (mkBsmStub (Real.sqrt (avgvar_mean pEx pEx.sigma 1)) pEx.intr pEx.divr).d2_var 1 1 1 1)) :=
  ⟨⟨by norm_num [pEx], by norm_num⟩,
    price_order2_correction mkBsmStub pEx 1 1 1 1 (by norm_num [pEx]) (by norm_num)⟩

/-- **C5.** In `HestonUncorrBallRoma1994.price` (for any parameters on which
the moments are defined, i.e. `mr > 0`, `texp > 0`): `order = 0` and
`order = 1` both return the uncorrected external flat-volatility price;
every `order > 2` raises the `ValueError` naming the requested order; and
`order = 2` (and only it) adds the corrective term. -/
theorem price_order_dispatch (mkBsm : ℝ → ℝ → ℝ → Bsm) (p : SvParams)
    (strike spot texp : ℝ) (cp : ℤ) (hmr : 0 < p.mr) (ht : 0 < texp) :
    (∀ order : ℤ, order < 2 →
      HestonUncorrBallRoma1994.price mkBsm p order strike spot texp cp =
        Except.ok ((mkBsm (Real.sqrt (avgvar_mean p p.sigma texp)) p.intr p.divr).price
          strike spot texp cp)) ∧
    (∀ order : ℤ, 2 < order →
      HestonUncorrBallRoma1994.price mkBsm p order strike spot texp cp =
        Except.error (PyError.valueErrorOrder order)) ∧
    HestonUncorrBallRoma1994.price mkBsm p 2 strike spot texp cp =
      Except.ok ((mkBsm (Real.sqrt (avgvar_mean p p.sigma texp)) p.intr p.divr).price
          strike spot texp cp +
        0.5 * avgvar_var p p.sigma texp *
          (mkBsm (Real.sqrt (avgvar_mean p p.sigma texp)) p.intr p.divr).d2_var
            strike spot texp cp) := by
  have hne : p.mr * texp ≠ 0 := by positivity
  refine ⟨?_, ?_, by simp [HestonUncorrBallRoma1994.price, avgvar_mv, hne]⟩
  · intro order hord
    have h2 : order ≠ 2 := by omega
    have h3 : ¬ (2 < order) := by omega
    simp [HestonUncorrBallRoma1994.price, avgvar_mv, hne, h2, h3]
  · intro order hord
    have h2 : order ≠ 2 := by omega
    simp [HestonUncorrBallRoma1994.price, avgvar_mv, hne, h2, hord]

/-- **C5, witness.** Hypotheses hold at the spec's scenario parameters with
the stub external pricer; instantiating the dispatch theorem there shows in
particular that `order = 3` raises `ValueError` naming `3` while orders `0`
and `1` return the uncorrected price. -/
theorem price_order_dispatch_witness :
    (0 < pEx.mr ∧ 0 < (1 : ℝ)) ∧
      ((∀ order : ℤ, order < 2 →
        HestonUncorrBallRoma1994.price mkBsmStub pEx order 1 1 1 1 =
          Except.ok ((mkBsmStub (Real.sqrt (avgvar_mean pEx pEx.sigma 1)) pEx.intr pEx.divr).price 1 1 1 1)) ∧
      (∀ order : ℤ, 2 < order →
        HestonUncorrBallRoma1994.price mkBsmStub pEx order 1 1 1 1 =
          Except.error (PyError.valueErrorOrder order)) ∧
      HestonUncorrBallRoma1994.price mkBsmStub pEx 2 1 1 1 1 =
        Except.ok ((mkBsmStub (Real.sqrt (avgvar_mean pEx pEx.sigma 1)) pEx.intr pEx.divr).price 1 1 1 1 +
          0.5 * avgvar_var pEx pEx.sigma 1 *
            (mkBsmStub (Real.sqrt (avgvar_mean pEx pEx.sigma 1)) pEx.intr pEx.divr).d2_var 1 1 1 1)) :=
  ⟨⟨by norm_num [pEx], by norm_num⟩,
    price_order_dispatch mkBsmStub pEx 1 1 1 1 (by norm_num [pEx]) (by norm_num)⟩

/-- Real-analysis helper: `1 - e^{-2t} - 2 t e^{-t} ≥ 0` for `t ≥ 0`
(equivalently `sinh t ≥ t`).  This is the coefficient of `var0` in
`t · var` of `avgvar_mv`. -/
lemma heston_A_nonneg (t : ℝ) (ht : 0 ≤ t) :
    0 ≤ 1 - Real.exp (-t) ^ 2 - 2 * t * Real.exp (-t) := by
  have hs : t ≤ Real.sinh t := Real.self_le_sinh_iff.mpr ht
  rw [Real.sinh_eq] at hs
  have h1 : Real.exp (-t) * Real.exp t = 1 := by
    rw [← Real.exp_add]; simp
  have key : 0 ≤ Real.exp (-t) * (Real.exp t - Real.exp (-t) - 2 * t) :=
    mul_nonneg (Real.exp_pos _).le (by linarith)
  nlinarith [key, h1]

/-- The auxiliary function `2t + 4t e^{-t} + 4 e^{-t} + e^{-2t} - 5`, i.e.
twice the coefficient of `theta` in `t · var` of `avgvar_mv`. -/
noncomputable def hestonF (s : ℝ) : ℝ :=
  2 * s + 4 * s * Real.exp (-s) + 4 * Real.exp (-s) + Real.exp (-(2 * s)) - 5

lemma hestonF_hasDerivAt (s : ℝ) :
    HasDerivAt hestonF (2 - 4 * s * Real.exp (-s) - 2 * Real.exp (-(2 * s))) s := by
  have he : HasDerivAt (fun x : ℝ => Real.exp (-x)) (Real.exp (-s) * (-1)) s :=
    ((hasDerivAt_id s).neg).exp
  have he2 : HasDerivAt (fun x : ℝ => Real.exp (-(2 * x))) (Real.exp (-(2 * s)) * (-(2 * 1))) s :=
    (((hasDerivAt_id s).const_mul (2 : ℝ)).neg).exp
  have hsum := ((((hasDerivAt_id s).const_mul (2 : ℝ)).add
      (((hasDerivAt_id s).const_mul (4 : ℝ)).mul he)).add
      (he.const_mul (4 : ℝ))).add he2
  have hfin := hsum.sub_const 5
  show HasDerivAt (fun s : ℝ =>
      2 * s + 4 * s * Real.exp (-s) + 4 * Real.exp (-s) + Real.exp (-(2 * s)) - 5) _ s
  convert hfin using 1
  simp only [id_eq]
  ring

lemma hestonF_nonneg (t : ℝ) (ht : 0 ≤ t) : 0 ≤ hestonF t := by
  have hdiff : Differentiable ℝ hestonF := fun s => (hestonF_hasDerivAt s).differentiableAt
  have hmono : MonotoneOn hestonF (Set.Ici 0) := by
    apply monotoneOn_of_deriv_nonneg (convex_Ici 0) hdiff.continuous.continuousOn
      hdiff.differentiableOn
    intro s hs
    rw [interior_Ici] at hs
    rw [(hestonF_hasDerivAt s).deriv]
    have hA := heston_A_nonneg s (le_of_lt hs)
    have h2 : Real.exp (-(2 * s)) = Real.exp (-s) ^ 2 := by
      rw [sq, ← Real.exp_add]; congr 1; ring
    rw [h2]; linarith
  have h0 : hestonF 0 = 0 := by norm_num [hestonF]
  have := hmono Set.left_mem_Ici (Set.mem_Ici.mpr ht) ht
  linarith

/-- Real-analysis helper: `t(1 + 2e^{-t}) - (1 - e^{-t})(5 + e^{-t})/2 ≥ 0`
for `t ≥ 0`: the coefficient of `theta` in `t · var` of `avgvar_mv`. -/
lemma heston_B_nonneg (t : ℝ) (ht : 0 ≤ t) :
    0 ≤ t * (1 + 2 * Real.exp (-t)) - (1 - Real.exp (-t)) * (5 + Real.exp (-t)) / 2 := by
  have hF := hestonF_nonneg t ht
  have h2 : Real.exp (-(2 * t)) = Real.exp (-t) ^ 2 := by
    rw [sq, ← Real.exp_add]; congr 1; ring
  simp only [hestonF, h2] at hF
  nlinarith [hF]

/-- The raw variance factor of `avgvar_mv` (before the `(vov/mrT)² texp`
scaling) is non-negative: it decomposes as
`(var0 · A(t) + theta · B(t))/t` with `A, B ≥ 0`. -/
lemma avgvar_var1_nonneg (a th t : ℝ) (ha : 0 ≤ a) (hth : 0 ≤ th) (ht : 0 < t) :
    0 ≤ (th - 2 * (a - th) * Real.exp (-t)) +
      (1 - Real.exp (-t)) * (a - 2.5 * th + (a - th / 2) * Real.exp (-t)) / t := by
  have hA := heston_A_nonneg t ht.le
  have hB := heston_B_nonneg t ht.le
  have key : t * ((th - 2 * (a - th) * Real.exp (-t)) +
      (1 - Real.exp (-t)) * (a - 2.5 * th + (a - th / 2) * Real.exp (-t)) / t) =
      a * (1 - Real.exp (-t) ^ 2 - 2 * t * Real.exp (-t)) +
        th * (t * (1 + 2 * Real.exp (-t)) -
          (1 - Real.exp (-t)) * (5 + Real.exp (-t)) / 2) := by
    field_simp
    ring
  have h1 : 0 ≤ t * ((th - 2 * (a - th) * Real.exp (-t)) +
      (1 - Real.exp (-t)) * (a - 2.5 * th + (a - th / 2) * Real.exp (-t)) / t) := by
    rw [key]
    exact add_nonneg (mul_nonneg ha hA) (mul_nonneg hth hB)
  nlinarith [h1, ht]

/-- **C3.** For every valid input (`mr > 0`, `vov ≥ 0`, `theta ≥ 0`,
`var0 ≥ 0`, `dt ≥ 0` resp. `texp > 0`), the variance component returned by
`var_mv` and by `avgvar_mv` is non-negative (in exact real arithmetic; no
tolerance is needed). -/
theorem moment_variance_nonneg (p : SvParams) (var0 dt texp : ℝ)
    (hmr : 0 < p.mr) (hth : 0 ≤ p.theta) (hvov : 0 ≤ p.vov) (hv0 : 0 ≤ var0)
    (hdt : 0 ≤ dt) (ht : 0 < texp) :
    0 ≤ (var_mv p var0 dt).2 ∧
    avgvar_mv p var0 texp =
      Except.ok (avgvar_mean p var0 texp, avgvar_var p var0 texp) ∧
    0 ≤ avgvar_var p var0 texp := by
  have htpos : 0 < p.mr * texp := mul_pos hmr ht
  refine ⟨?_, by simp [avgvar_mv, htpos.ne'], ?_⟩
  · have he1 : 0 < Real.exp (-(p.mr * dt)) := Real.exp_pos _
    have he2 : Real.exp (-(p.mr * dt)) ≤ 1 :=
      Real.exp_le_one_iff.mpr (neg_nonpos_of_nonneg (mul_nonneg hmr.le hdt))
    have h1 : 0 ≤ 1 - Real.exp (-(p.mr * dt)) := by linarith
    show 0 ≤ (var0 * Real.exp (-(p.mr * dt)) +
        p.theta * (1 - Real.exp (-(p.mr * dt))) / 2) *
        (p.vov ^ 2 * (1 - Real.exp (-(p.mr * dt))) / p.mr)
    exact mul_nonneg
      (add_nonneg (mul_nonneg hv0 he1.le)
        (div_nonneg (mul_nonneg hth h1) (by norm_num)))
      (div_nonneg (mul_nonneg (sq_nonneg p.vov) h1) hmr.le)
  · show 0 ≤ ((p.theta - 2 * (var0 - p.theta) * Real.exp (-(p.mr * texp))) +
        (1 - Real.exp (-(p.mr * texp))) *
          (var0 - 2.5 * p.theta + (var0 - p.theta / 2) * Real.exp (-(p.mr * texp))) /
          (p.mr * texp)) *
        ((p.vov / (p.mr * texp)) ^ 2 * texp)
    exact mul_nonneg
      (avgvar_var1_nonneg var0 p.theta (p.mr * texp) hv0 hth htpos)
      (mul_nonneg (sq_nonneg _) ht.le)

/-- **C3, witness.** The hypotheses hold at the spec's concrete scenario
(`mr = 1, theta = 0.04, vov = 0.2, var0 = 0.04, dt = texp = 1`), and the
conclusion is `moment_variance_nonneg` applied there. -/
theorem moment_variance_nonneg_witness :
    (0 < pEx.mr ∧ 0 ≤ pEx.theta ∧ 0 ≤ pEx.vov ∧ 0 ≤ (0.04 : ℝ) ∧
      0 ≤ (1 : ℝ) ∧ 0 < (1 : ℝ)) ∧
      (0 ≤ (var_mv pEx 0.04 1).2 ∧
      avgvar_mv pEx 0.04 1 =
        Except.ok (avgvar_mean pEx 0.04 1, avgvar_var pEx 0.04 1) ∧
      0 ≤ avgvar_var pEx 0.04 1) :=
  ⟨⟨by norm_num [pEx], by norm_num [pEx], by norm_num [pEx], by norm_num,
      by norm_num, by norm_num⟩,
    moment_variance_nonneg pEx 0.04 1 1 (by norm_num [pEx]) (by norm_num [pEx])
      (by norm_num [pEx]) (by norm_num) (by norm_num) (by norm_num)⟩

/-- **C9 (the code evaluated at the failing input).** At `mr = 1`,
`texp = 1e-8` — so `mrT = 1e-8`, far below the spec's example threshold
`1e-6` — `avgvar_mv` still returns exactly the raw closed-form expression:
the code contains no threshold branch, stable rearrangement or Taylor-series
fallback (the cancellation the spec guards against is an IEEE floating-point
effect with no counterpart in exact real arithmetic). -/
theorem avgvar_mv_no_fallback_eval :
    avgvar_mv pEx 0.09 1e-8 =
      Except.ok (pEx.theta +
          (0.09 - pEx.theta) * (1 - Real.exp (-(pEx.mr * 1e-8))) / (pEx.mr * 1e-8),
        avgvar_var pEx 0.09 1e-8) := by
  have hne : pEx.mr * (1e-8 : ℝ) ≠ 0 := by norm_num [pEx]
  simp [avgvar_mv, avgvar_mean, hne]

end PyFENG
